import Mathlib

/-!
Verification development for the `hybridbody` obstacle-avoidance pipeline
(`src/simulation`).  The Python modules are shallowly embedded:

* `camera/utils/config.py`  — configuration constants;
* `haptic_feedback/belt_control.py` — `trigger_haptic_feedback`;
* `camera/utils/helpers.py` — `map_obstacles_to_sectors`;
* `obstacle_detection/ground_plane.py` — `estimate_ground_plane`;
* `obstacle_detection/segmentation.py` — `segment_obstacles` (with the
  sklearn `DBSCAN` clusterer it calls, modelled after sklearn's
  documented algorithm and input validation);
* `camera/capture.py` and `main.py` — the frame-loop orchestrator.

Machine floats are modelled as exact rationals, and a call that raises a
Python exception is modelled as an `Except.error`.
-/

set_option autoImplicit false

namespace Hybridbody

open Real

/-! ### Configuration constants (src/simulation/camera/utils/config.py) -/

def FRAME_WIDTH : ℚ := 640

def FRAME_HEIGHT : ℚ := 480

def FOCAL_LENGTH : ℚ := 525

/-- `GROUND_HEIGHT_THRESHOLD = 1.2` (camera height in meters). -/
def GROUND_HEIGHT_THRESHOLD : ℚ := 6/5

def WARNING_DISTANCE : ℚ := 2

def SECTORS : List String := ["N", "NE", "NW"]

/-! ### Python primitives -/

/-- Python `int(q)` applied to a float: truncation toward zero. -/
def ratTrunc (q : ℚ) : ℤ := if 0 ≤ q then ⌊q⌋ else ⌈q⌉

/-! ### Actuation law (src/simulation/haptic_feedback/belt_control.py) -/

/-- Lines 13–14 of `belt_control.py`:
`intensity = int(255 * (1 - distance / config.WARNING_DISTANCE))`
followed by `intensity = max(0, min(255, intensity))`. -/
def intensity (d : ℚ) : ℤ :=
  max 0 (min 255 (ratTrunc (255 * (1 - d / WARNING_DISTANCE))))

/-- Line 8 of `belt_control.py`: `motor_map = {"N": 0, "NE": 1, "NW": 2}`.
A lookup of any other key raises `KeyError` in Python, modelled as `none`. -/
def motorMap (s : String) : Option ℤ :=
  if s = "N" then some 0 else if s = "NE" then some 1
  else if s = "NW" then some 2 else none

/-- `trigger_haptic_feedback(sectors)` from `belt_control.py`.  The dict is
modelled as an insertion-ordered association list.  The guard
`if distance and distance < config.WARNING_DISTANCE` uses Python truthiness:
both `None` and `0.0` are falsy, so those entries are skipped.  Each emitted
serial write is recorded as a `(motor_id, intensity)` pair; a `KeyError`
on the motor map aborts with an error. -/
def trigger_haptic_feedback : List (String × Option ℚ) → Except String (List (ℤ × ℤ))
  | [] => Except.ok []
  | (s, dist) :: rest =>
    match dist with
    | none => trigger_haptic_feedback rest
    | some d =>
      if d ≠ 0 ∧ d < WARNING_DISTANCE then
        match motorMap s with
        | none => Except.error "KeyError"
        | some m =>
          Except.map (fun cmds => (m, intensity d) :: cmds) (trigger_haptic_feedback rest)
      else trigger_haptic_feedback rest

/-- The commands contributed by a single sector entry of the loop in
`trigger_haptic_feedback`: nothing for a falsy or far distance, and one
command otherwise. -/
def cmdOpt (m : ℤ) : Option ℚ → List (ℤ × ℤ)
  | none => []
  | some d => if d ≠ 0 ∧ d < WARNING_DISTANCE then [(m, intensity d)] else []

/-! ### Ground-plane classifier (src/simulation/obstacle_detection/ground_plane.py)

`estimate_ground_plane(depth_map)` builds `u, v = meshgrid(...)`, computes
`y = (v - height/2) * z / FOCAL_LENGTH`, `heights = -y - GROUND_HEIGHT_THRESHOLD`
and returns `abs(heights) < 0.1`.  The array `x` is also computed but never
used, and `u` does not occur in `heights`, so each pixel's mask value depends
only on its row index `v`, its own depth `z` and the fixed parameters. -/

/-- The `heights` entry of pixel row `v` with depth `z` on a depth map with
`nrows` rows: `-((v - nrows/2) * z / FOCAL_LENGTH) - GROUND_HEIGHT_THRESHOLD`. -/
def heightAt (nrows v : ℕ) (z : ℚ) : ℚ :=
  -(((v : ℚ) - (nrows : ℚ) / 2) * z / FOCAL_LENGTH) - GROUND_HEIGHT_THRESHOLD

/-- One row of the ground mask: the vectorized `abs(heights) < 0.1`,
elementwise over the row's depth values. -/
def groundRow (nrows v : ℕ) : List ℚ → List Bool
  | [] => []
  | z :: zs => decide (|heightAt nrows v z| < 1/10) :: groundRow nrows v zs

/-- All rows of the ground mask, with `v` counting up from the given start. -/
def groundRows (nrows : ℕ) : ℕ → List (List ℚ) → List (List Bool)
  | _, [] => []
  | v, r :: rs => groundRow nrows v r :: groundRows nrows (v + 1) rs

/-- `estimate_ground_plane(depth_map)` from `ground_plane.py`. -/
def estimate_ground_plane (dm : List (List ℚ)) : List (List Bool) :=
  groundRows dm.length 0 dm

/-! ### Obstacle clusterer (src/simulation/obstacle_detection/segmentation.py)

`segment_obstacles(depth_map, ground_mask)` collects the `(u, v, z)` point of
every pixel where the mask is False (`np.where` enumerates row-major: `v`
then `u`), fits sklearn `DBSCAN(eps=10, min_samples=20)` on those points, and
materializes one obstacle per non-noise cluster label. -/

/-- A point in mixed pixel/depth space: `(u, v, z)`. -/
abbrev Point3 := ℚ × ℚ × ℚ

/-- The points of one pixel row whose mask entry is False, `u` counting up
from the given start. -/
def rowPoints (v : ℕ) : ℕ → List ℚ → List Bool → List Point3
  | _, [], _ => []
  | _, _ :: _, [] => []
  | u, z :: zs, b :: bs =>
    if b then rowPoints v (u + 1) zs bs
    else ((u : ℚ), (v : ℚ), z) :: rowPoints v (u + 1) zs bs

/-- All non-ground points of the frame in row-major (`v`, then `u`) order,
matching `v, u = np.where(~ground_mask)` and `z = depth_map[~ground_mask]`. -/
def gridPoints : ℕ → List (List ℚ) → List (List Bool) → List Point3
  | _, [], _ => []
  | _, _ :: _, [] => []
  | v, r :: rs, m :: ms => rowPoints v 0 r m ++ gridPoints (v + 1) rs ms

/-- Squared Euclidean distance in `(u, v, z)` space. -/
def sqDist (p q : Point3) : ℚ :=
  (p.1 - q.1) ^ 2 + (p.2.1 - q.2.1) ^ 2 + (p.2.2 - q.2.2) ^ 2

/-- Indices of the eps-neighborhood of `p` (inclusive radius, as in
sklearn's `radius_neighbors`); compares squared distances to stay in ℚ. -/
def neighborsOf (pts : List Point3) (p : Point3) (eps : ℚ) : List ℕ :=
  (List.range pts.length).filter
    (fun j => decide (sqDist p (pts.getD j (0, 0, 0)) ≤ eps ^ 2))

/-- The cluster-expansion loop of sklearn's `dbscan_inner`: pop an index;
if it is still unlabeled, label it with the current cluster and, if it is a
core point, push its still-unlabeled neighbors.  Fuel bounds the number of
iterations; the caller supplies more fuel than the total number of possible
pushes, so the stack always empties before the fuel does. -/
def bfsExpand (isCore : List Bool) (nbh : List (List ℕ)) :
    ℕ → List ℤ → List ℕ → ℤ → List ℤ
  | 0, lab, _, _ => lab
  | _ + 1, lab, [], _ => lab
  | fuel + 1, lab, i :: stack, cl =>
    if lab.getD i (-1) = -1 then
      let lab' := lab.set i cl
      if isCore.getD i false then
        bfsExpand isCore nbh fuel lab'
          (((nbh.getD i []).filter (fun j => decide (lab'.getD j (-1) = -1))) ++ stack) cl
      else bfsExpand isCore nbh fuel lab' stack cl
    else bfsExpand isCore nbh fuel lab stack cl

/-- The outer loop of sklearn's `dbscan_inner`: scan indices in order; each
still-unlabeled core point seeds a new cluster. -/
def dbscanOuter (isCore : List Bool) (nbh : List (List ℕ)) (fuel : ℕ) :
    List ℕ → List ℤ → ℤ → List ℤ
  | [], lab, _ => lab
  | i :: rest, lab, cl =>
    if lab.getD i (-1) = -1 ∧ isCore.getD i false = true then
      dbscanOuter isCore nbh fuel rest (bfsExpand isCore nbh fuel lab [i] cl) (cl + 1)
    else dbscanOuter isCore nbh fuel rest lab cl

/-- `DBSCAN(eps, min_samples).fit(pts).labels_`: noise points keep label -1. -/
def dbscan_labels (eps : ℚ) (minSamples : ℕ) (pts : List Point3) : List ℤ :=
  let nbh := pts.map (fun p => neighborsOf pts p eps)
  let isCore := nbh.map (fun l => decide (minSamples ≤ l.length))
  dbscanOuter isCore nbh (pts.length * pts.length + pts.length + 1)
    (List.range pts.length) (List.replicate pts.length (-1)) 0

/-- Insert into a sorted duplicate-free list of labels. -/
def insertUniq (x : ℤ) : List ℤ → List ℤ
  | [] => [x]
  | y :: ys =>
    if x < y then x :: y :: ys else if x = y then y :: ys else y :: insertUniq x ys

/-- `unique_labels = set(labels) - {-1}`: the distinct non-noise labels in
ascending order (CPython iterates a set of small non-negative ints in
ascending order, and cluster labels are `0, 1, 2, ...`). -/
def uniqueLabels (labs : List ℤ) : List ℤ :=
  (labs.filter (fun l => decide (l ≠ -1))).foldr insertUniq []

/-- `np.mean(cluster_points, axis=0)`: the component-wise arithmetic mean. -/
def meanPt (cps : List Point3) : Point3 :=
  ((cps.map (fun p => p.1)).sum / (cps.length : ℚ),
   (cps.map (fun p => p.2.1)).sum / (cps.length : ℚ),
   (cps.map (fun p => p.2.2)).sum / (cps.length : ℚ))

/-- `{"centroid": centroid, "points": cluster_points}`. -/
structure Obstacle where
  centroid : Point3
  points : List Point3
  deriving DecidableEq

/-- `points[labels == label]`: the points of one cluster, in point order. -/
def selectByLabel (pts : List Point3) (labs : List ℤ) (l : ℤ) : List Point3 :=
  ((pts.zip labs).filter (fun pl => decide (pl.2 = l))).map Prod.fst

/-- `segment_obstacles(depth_map, ground_mask)` from `segmentation.py`.
sklearn's `fit` validates its input and raises
`ValueError: Found array with 0 sample(s) ...` when the non-ground point set
is empty; this library behavior is part of the call's semantics and is
modelled by the error branch. -/
def segment_obstacles (dm : List (List ℚ)) (mask : List (List Bool)) :
    Except String (List Obstacle) :=
  let pts := gridPoints 0 dm mask
  if pts.isEmpty then
    Except.error "Found array with 0 sample(s) while a minimum of 1 is required"
  else
    let labs := dbscan_labels 10 20 pts
    Except.ok ((uniqueLabels labs).map (fun l =>
      { centroid := meanPt (selectByLabel pts labs l)
        points := selectByLabel pts labs l }))

/-! ### Sector mapper (src/simulation/camera/utils/helpers.py)

`map_obstacles_to_sectors(obstacles)` computes for each obstacle the angle
`arctan2(u - FRAME_WIDTH/2, FOCAL_LENGTH) * 180 / pi` and compares it with
±15 and ±45 degrees.  Since `FOCAL_LENGTH = 525 > 0`, the angle is
`arctan t * 180 / pi` for `t = (u - FRAME_WIDTH/2) / FOCAL_LENGTH`, a
strictly increasing function of `t`, so each comparison with a degree bound
`d` is equivalent to comparing `t` with `tan (d * π / 180)`; for d = ±15
that bound is `±(2 - √3)`, for d = ±45 it is `±1`.  The Boolean tests below
implement the ±15 comparisons exactly over ℚ (see the bridge theorems
relating them to `Real.arctan`). -/

/-- `angle ≤ 15` i.e. `t ≤ tan 15° = 2 - √3`, decided over ℚ:
`√3 ≤ 2 - t ↔ 0 ≤ 2 - t ∧ 3 ≤ (2 - t)²`. -/
def le_tan15 (t : ℚ) : Bool := decide (0 ≤ 2 - t ∧ 3 ≤ (2 - t) ^ 2)

/-- `-15 ≤ angle` i.e. `√3 - 2 ≤ t`, decided over ℚ:
`√3 ≤ t + 2 ↔ 0 ≤ t + 2 ∧ 3 ≤ (t + 2)²`. -/
def ge_tanNeg15 (t : ℚ) : Bool := decide (0 ≤ t + 2 ∧ 3 ≤ (t + 2) ^ 2)

/-- The tangent-scale abscissa of an obstacle's centroid:
`(u - FRAME_WIDTH/2) / FOCAL_LENGTH`. -/
def obstacleT (o : Obstacle) : ℚ := (o.centroid.1 - FRAME_WIDTH / 2) / FOCAL_LENGTH

/-- The `if/elif/elif` chain of `map_obstacles_to_sectors` on the tangent
scale: `-15 ≤ angle ≤ 15` → N; `15 < angle ≤ 45` → NE;
`-45 ≤ angle < -15` → NW; otherwise no sector. -/
def sectorOf (t : ℚ) : Option String :=
  if ge_tanNeg15 t && le_tan15 t then some "N"
  else if !le_tan15 t && decide (t ≤ 1) then some "NE"
  else if decide (-1 ≤ t) && !ge_tanNeg15 t then some "NW"
  else none

/-- One iteration of the loop in `map_obstacles_to_sectors`: append the
obstacle's centroid `z` to the list of the sector its angle falls in
(`sectorOf` encodes the `if/elif/elif` chain; an obstacle outside all bands
is dropped). -/
def sectorStep (acc : List ℚ × List ℚ × List ℚ) (o : Obstacle) :
    List ℚ × List ℚ × List ℚ :=
  if sectorOf (obstacleT o) = some "N" then (acc.1 ++ [o.centroid.2.2], acc.2.1, acc.2.2)
  else if sectorOf (obstacleT o) = some "NE" then
    (acc.1, acc.2.1 ++ [o.centroid.2.2], acc.2.2)
  else if sectorOf (obstacleT o) = some "NW" then
    (acc.1, acc.2.1, acc.2.2 ++ [o.centroid.2.2])
  else acc

/-- `map_obstacles_to_sectors(obstacles)` from `helpers.py`: append each
obstacle's centroid `z` to its sector's list, then take the minimum per
sector (`None` for an empty list, matching
`min(distances) if distances else None`).  The returned dict is modelled as
an association list in the dict's insertion order N, NE, NW. -/
def map_obstacles_to_sectors (obstacles : List Obstacle) : List (String × Option ℚ) :=
  let fin := obstacles.foldl sectorStep ([], [], [])
  [("N", fin.1.min?), ("NE", fin.2.1.min?), ("NW", fin.2.2.min?)]

/-! ### Frame-loop orchestrator (src/simulation/main.py, camera/capture.py) -/

/-- A raw camera frame; the pipeline never inspects it here. -/
abbrev Frame := ℕ

/-- The environment of one `while True` iteration of `main()`: what
`cap.read()` yields (`none` models `ret == False`) and whether
`cv2.waitKey(1) & 0xFF == ord('q')` holds. -/
structure IterEnv where
  frame : Option Frame
  quitKey : Bool

/-- `capture_frame()` from `camera/capture.py`: raises
`Exception("Failed to capture frame from camera")` when `ret` is falsy. -/
def capture_frame (res : Option Frame) : Except String Frame :=
  match res with
  | none => Except.error "Failed to capture frame from camera"
  | some f => Except.ok f

/-- How a (truncated) run of `main()`'s frame loop ended. -/
inductive ExitKind where
  | quit : ExitKind
  | err : String → ExitKind
  | horizon : ExitKind
  deriving DecidableEq

/-- The frames `main()` fed into the pipeline, and how the loop ended. -/
structure MainResult where
  processed : List Frame
  exit : ExitKind
  deriving DecidableEq

/-- The `while True` loop of `main()` in `main.py`, observed over a finite
list of per-iteration environments (`ExitKind.horizon` truncates the
infinite loop).  Each iteration calls `capture_frame()` and then runs the
pipeline stages on the frame (those stages do not affect the control flow
studied here, so the loop records the frames fed to them); an uncaught
exception from `capture_frame` propagates out of the loop — `main.py` has
no per-iteration handler, its top-level handler prints `Error: ...` and the
process exits.  The `waitKey` quit check ends the loop after the current
frame. -/
def mainLoop : List IterEnv → MainResult
  | [] => ⟨[], ExitKind.horizon⟩
  | env :: rest =>
    match capture_frame env.frame with
    | Except.error e => ⟨[], ExitKind.err e⟩
    | Except.ok f =>
      if env.quitKey then ⟨[f], ExitKind.quit⟩
      else
        let r := mainLoop rest
        ⟨f :: r.processed, r.exit⟩


/-! ### A concrete scene for exercising the clusterer

A 32-row × 11-column frame whose non-ground pixels are: a vertical column
of 21 pixels at `u = 5`, `v = 0..20`; a single pixel at `(u, v) = (5, 23)`;
and the full bottom row `v = 31` (11 pixels).  All depths are 0. -/

/-- The 32×11 all-zero depth map of the scene. -/
def cexDepthMap : List (List ℚ) := (List.range 32).map (fun _ => List.replicate 11 (0:ℚ))

/-- The ground mask of the scene: `false` (non-ground) exactly at the
column `u = 5, v ≤ 20`, the pixel `(5, 23)`, and the row `v = 31`. -/
def cexGroundMask : List (List Bool) :=
  (List.range 32).map (fun v => (List.range 11).map (fun u =>
    !(decide ((u = 5 ∧ (v ≤ 20 ∨ v = 23)) ∨ v = 31))))

/-! ## Theorems -/

/-! ### Helper lemmas about the actuation law -/

theorem motorMap_N : motorMap "N" = some 0 := rfl

theorem motorMap_NE : motorMap "NE" = some 1 := rfl

theorem motorMap_NW : motorMap "NW" = some 2 := rfl

theorem trigger_eq_cmdOpt (oN oNE oNW : Option ℚ) :
    trigger_haptic_feedback [("N", oN), ("NE", oNE), ("NW", oNW)] =
      Except.ok (cmdOpt 0 oN ++ cmdOpt 1 oNE ++ cmdOpt 2 oNW) := by
  rcases oN with _ | dN <;> rcases oNE with _ | dNE <;> rcases oNW with _ | dNW <;>
    simp only [trigger_haptic_feedback, cmdOpt, motorMap_N, motorMap_NE, motorMap_NW] <;>
    first
      | rfl
      | (split_ifs <;> rfl)

theorem cmdOpt_length_le (m : ℤ) (o : Option ℚ) : (cmdOpt m o).length ≤ 1 := by
  rcases o with _ | d
  · simp [cmdOpt]
  · simp only [cmdOpt]
    split <;> simp

theorem mem_cmdOpt_iff (m k i : ℤ) (o : Option ℚ) :
    (k, i) ∈ cmdOpt m o ↔
      k = m ∧ ∃ d, o = some d ∧ d ≠ 0 ∧ d < WARNING_DISTANCE ∧ i = intensity d := by
  rcases o with _ | d
  · simp [cmdOpt]
  · simp only [cmdOpt]
    split_ifs with h
    · simp only [List.mem_singleton, Prod.mk.injEq, Option.some.injEq]
      constructor
      · rintro ⟨hk, hi⟩
        exact ⟨hk, d, rfl, h.1, h.2, hi⟩
      · rintro ⟨hk, d', hd', -, -, hi⟩
        cases hd'
        exact ⟨hk, hi⟩
    · simp only [List.not_mem_nil, false_iff]
      rintro ⟨hk, d', hd', h1, h2, -⟩
      cases hd'
      exact h ⟨h1, h2⟩

/-- **C5** — The actuation-law intensity function (lines 13–14 of
`belt_control.py`) satisfies: intensity 0 is 255, intensity at
`WARNING_DISTANCE` is 0, and intensity is monotonically non-increasing in
the distance over `[0, WARNING_DISTANCE]`. -/
theorem intensity_actuation_law :
    intensity 0 = 255 ∧ intensity WARNING_DISTANCE = 0 ∧
      ∀ d1 d2 : ℚ, 0 ≤ d1 → d1 ≤ d2 → d2 ≤ WARNING_DISTANCE →
        intensity d2 ≤ intensity d1 := by
  refine ⟨by norm_num [intensity, ratTrunc, WARNING_DISTANCE],
    by norm_num [intensity, ratTrunc, WARNING_DISTANCE], ?_⟩
  intro d1 d2 _ h12 _
  have harg : 255 * (1 - d2 / WARNING_DISTANCE) ≤ 255 * (1 - d1 / WARNING_DISTANCE) := by
    have : d1 / WARNING_DISTANCE ≤ d2 / WARNING_DISTANCE := by
      exact div_le_div_of_nonneg_right h12 (by norm_num [WARNING_DISTANCE])
    linarith
  have htr : ratTrunc (255 * (1 - d2 / WARNING_DISTANCE)) ≤
      ratTrunc (255 * (1 - d1 / WARNING_DISTANCE)) := by
    unfold ratTrunc
    split_ifs with ha hb hb
    · exact Int.floor_mono harg
    · exact absurd (le_trans ha harg) hb
    · exact le_trans (Int.ceil_le.mpr (by exact_mod_cast le_of_not_le ha))
        (Int.floor_nonneg.mpr hb)
    · exact Int.ceil_mono harg
  exact max_le_max le_rfl (min_le_min le_rfl htr)

/-- Witness for `intensity_actuation_law`: the monotonicity part applied at
distances 1/2 ≤ 1 within `[0, WARNING_DISTANCE]`. -/
theorem intensity_actuation_law_witness : intensity 1 ≤ intensity (1/2) :=
  intensity_actuation_law.2.2 (1/2) 1 (by norm_num) (by norm_num)
    (by norm_num [WARNING_DISTANCE])

/-- **C1, counterexample** — The claim fails on the code.  At distance
exactly 0 (not `None`, and `0 < WARNING_DISTANCE`) the guard
`if distance and ...` is falsy, so no command is emitted, whereas the claim
requires a command of intensity 255.  Moreover at distance 1 the code emits
intensity `int(127.5) = 127`, while the claimed formula
`clamp(round(255 * (1 - d/W)), 0, 255)` gives 128. -/
theorem trigger_claim_counterexample :
    trigger_haptic_feedback [("N", some 0), ("NE", none), ("NW", none)] = Except.ok [] ∧
    trigger_haptic_feedback [("N", some 1), ("NE", none), ("NW", none)] =
        Except.ok [(0, 127)] ∧
    intensity 1 = 127 ∧
    max 0 (min 255 (round ((255 : ℚ) * (1 - 1 / WARNING_DISTANCE)))) = 128 := by
  refine ⟨?_, ?_, ?_, ?_⟩
  · rw [trigger_eq_cmdOpt]
    simp [cmdOpt]
  · rw [trigger_eq_cmdOpt]
    norm_num [cmdOpt, WARNING_DISTANCE, intensity, ratTrunc]
  · norm_num [intensity, ratTrunc, WARNING_DISTANCE]
  · norm_num [WARNING_DISTANCE, round_eq]

/-- **C1, amended** — For a per-frame sector reading (keys N, NE, NW),
`trigger_haptic_feedback` emits a command for a sector iff that sector's
distance is not `None`, is nonzero, and is `< WARNING_DISTANCE`; the
emitted intensity is `clamp(trunc(255 * (1 - d/W)), 0, 255)` with
truncation toward zero (Python `int`), not rounding.  In particular at
distance exactly 0 no command is emitted. -/
theorem trigger_emission_characterization (oN oNE oNW : Option ℚ) (i : ℤ) :
    trigger_haptic_feedback [("N", oN), ("NE", oNE), ("NW", oNW)] =
        Except.ok (cmdOpt 0 oN ++ cmdOpt 1 oNE ++ cmdOpt 2 oNW) ∧
    ((0, i) ∈ cmdOpt 0 oN ++ cmdOpt 1 oNE ++ cmdOpt 2 oNW ↔
        ∃ d, oN = some d ∧ d ≠ 0 ∧ d < WARNING_DISTANCE ∧ i = intensity d) ∧
    ((1, i) ∈ cmdOpt 0 oN ++ cmdOpt 1 oNE ++ cmdOpt 2 oNW ↔
        ∃ d, oNE = some d ∧ d ≠ 0 ∧ d < WARNING_DISTANCE ∧ i = intensity d) ∧
    ((2, i) ∈ cmdOpt 0 oN ++ cmdOpt 1 oNE ++ cmdOpt 2 oNW ↔
        ∃ d, oNW = some d ∧ d ≠ 0 ∧ d < WARNING_DISTANCE ∧ i = intensity d) ∧
    cmdOpt 0 (some 0) = [] := by
  refine ⟨trigger_eq_cmdOpt oN oNE oNW, ?_, ?_, ?_, by simp [cmdOpt]⟩ <;>
    simp only [List.mem_append, mem_cmdOpt_iff] <;> norm_num

/-! ### Ground-plane theorems -/

theorem groundRows_get? (nrows : ℕ) :
    ∀ (v0 : ℕ) (rs : List (List ℚ)) (v : ℕ),
      (groundRows nrows v0 rs).get? v = (rs.get? v).map (groundRow nrows (v0 + v)) := by
  intro v0 rs
  induction rs generalizing v0 with
  | nil => intro v; simp [groundRows]
  | cons r rs ih =>
    intro v
    cases v with
    | zero => simp [groundRows]
    | succ v =>
      simp only [groundRows, List.get?]
      have h : v0 + (v + 1) = (v0 + 1) + v := by omega
      rw [h]
      exact ih (v0 + 1) v

theorem groundRow_get? (nrows v : ℕ) :
    ∀ (row : List ℚ) (u : ℕ),
      (groundRow nrows v row).get? u =
        (row.get? u).map (fun z => decide (|heightAt nrows v z| < 1/10)) := by
  intro row
  induction row with
  | nil => intro u; simp [groundRow]
  | cons z zs ih =>
    intro u
    cases u with
    | zero => simp [groundRow]
    | succ u => simpa [groundRow] using ih u

theorem estimate_ground_plane_get? (dm : List (List ℚ)) (v : ℕ) :
    (estimate_ground_plane dm).get? v = (dm.get? v).map (groundRow dm.length v) := by
  rw [estimate_ground_plane, groundRows_get? dm.length 0 dm v]
  simp [Nat.zero_add]

theorem mask_pixel (dm : List (List ℚ)) (v u : ℕ) (row : List ℚ) (z : ℚ)
    (hrow : dm.get? v = some row) (hz : row.get? u = some z) :
    ((estimate_ground_plane dm).get? v).bind (fun r => r.get? u) =
      some (decide (|heightAt dm.length v z| < 1/10)) := by
  rw [estimate_ground_plane_get?, hrow]
  show (groundRow dm.length v row).get? u = _
  rw [groundRow_get? dm.length v row u, hz]
  rfl

/-- **C7** — Any pixel whose computed height is exactly 0 is classified as
ground by `estimate_ground_plane` (the tolerance band 0.1 is positive). -/
theorem height_zero_is_ground (dm : List (List ℚ)) (v u : ℕ) (row : List ℚ) (z : ℚ)
    (hrow : dm.get? v = some row) (hz : row.get? u = some z)
    (hh : heightAt dm.length v z = 0) :
    ∃ mrow, (estimate_ground_plane dm).get? v = some mrow ∧ mrow.get? u = some true := by
  refine ⟨groundRow dm.length v row, ?_, ?_⟩
  · rw [estimate_ground_plane_get?, hrow]
    rfl
  · rw [groundRow_get? dm.length v row u, hz]
    simp [hh]

/-- Witness for `height_zero_is_ground`: the depth map `[[630], [0]]` has
height exactly 0 at pixel (v, u) = (0, 0), since
`-((0 - 2/2) * 630 / 525) - 1.2 = 1.2 - 1.2 = 0`; that pixel is ground. -/
theorem height_zero_is_ground_witness :
    ∃ mrow, (estimate_ground_plane [[630], [0]]).get? 0 = some mrow ∧
      mrow.get? 0 = some true := by
  refine height_zero_is_ground [[630], [0]] 0 0 [630] 630 rfl rfl ?_
  norm_num [heightAt, FOCAL_LENGTH, GROUND_HEIGHT_THRESHOLD]

/-- **C8** — Ground classification is per-pixel independent: two depth maps
with the same number of rows that agree at a pixel get the same mask value
at that pixel (each pixel's classification depends only on its own depth,
its row index and the fixed camera parameters). -/
theorem ground_perpixel_independent (dm1 dm2 : List (List ℚ)) (v u : ℕ)
    (r1 r2 : List ℚ) (z : ℚ)
    (hlen : dm1.length = dm2.length)
    (h1 : dm1.get? v = some r1) (h2 : dm2.get? v = some r2)
    (hz1 : r1.get? u = some z) (hz2 : r2.get? u = some z) :
    ∃ b, ((estimate_ground_plane dm1).get? v).bind (fun r => r.get? u) = some b ∧
      ((estimate_ground_plane dm2).get? v).bind (fun r => r.get? u) = some b := by
  refine ⟨decide (|heightAt dm1.length v z| < 1/10), ?_, ?_⟩
  · exact mask_pixel dm1 v u r1 z h1 hz1
  · rw [mask_pixel dm2 v u r2 z h2 hz2, hlen]

/-- Witness for `ground_perpixel_independent`: `[[0, 1]]` and `[[0, 2]]`
agree at pixel (0, 0), so their masks agree there. -/
theorem ground_perpixel_independent_witness :
    ∃ b, ((estimate_ground_plane [[0, 1]]).get? 0).bind (fun r => r.get? 0) = some b ∧
      ((estimate_ground_plane [[0, 2]]).get? 0).bind (fun r => r.get? 0) = some b :=
  ground_perpixel_independent [[0, 1]] [[0, 2]] 0 0 [0, 1] [0, 2] 0 rfl rfl rfl rfl rfl

/-! ### Non-ground point collection and C9 -/

theorem mem_rowPoints (v : ℕ) :
    ∀ (u0 : ℕ) (zs : List ℚ) (bs : List Bool) (u : ℕ) (z : ℚ),
      zs.get? u = some z → bs.get? u = some false →
      (((u0 + u : ℕ) : ℚ), (v : ℚ), z) ∈ rowPoints v u0 zs bs := by
  intro u0 zs
  induction zs generalizing u0 with
  | nil => intro bs u z hz hb; simp at hz
  | cons zz zs ih =>
    intro bs u z hz hb
    cases bs with
    | nil => simp at hb
    | cons b bs =>
      cases u with
      | zero =>
        simp only [List.get?] at hz hb
        cases hz
        cases hb
        simp [rowPoints]
      | succ u =>
        have hmem := ih (u0 + 1) bs u z (by simpa using hz) (by simpa using hb)
        have heq : u0 + 1 + u = u0 + (u + 1) := by omega
        rw [heq] at hmem
        cases b
        · simp only [rowPoints, if_neg Bool.false_ne_true]
          exact List.mem_cons_of_mem _ hmem
        · simpa [rowPoints] using hmem

theorem mem_gridPoints :
    ∀ (v0 : ℕ) (rs : List (List ℚ)) (ms : List (List Bool)) (v u : ℕ)
      (row : List ℚ) (mrow : List Bool) (z : ℚ),
      rs.get? v = some row → ms.get? v = some mrow →
      row.get? u = some z → mrow.get? u = some false →
      ((u : ℚ), ((v0 + v : ℕ) : ℚ), z) ∈ gridPoints v0 rs ms := by
  intro v0 rs
  induction rs generalizing v0 with
  | nil => intro ms v u row mrow z hr hm hz hb; simp at hr
  | cons r rs ih =>
    intro ms v u row mrow z hr hm hz hb
    cases ms with
    | nil => simp at hm
    | cons m ms =>
      cases v with
      | zero =>
        simp only [List.get?, Option.some.injEq] at hr hm
        rw [hr, hm]
        simp only [gridPoints]
        refine List.mem_append_left _ ?_
        simpa using mem_rowPoints v0 0 row mrow u z hz hb
      | succ v =>
        have hmem := ih (v0 + 1) ms v u row mrow z
          (by simpa using hr) (by simpa using hm) hz hb
        have heq : v0 + 1 + v = v0 + (v + 1) := by omega
        rw [heq] at hmem
        simp only [gridPoints]
        exact List.mem_append_right _ hmem

/-- **C9** — A pixel with depth exactly 0 has height `-1.2`, so
`estimate_ground_plane` marks it non-ground, and it enters the clusterer's
non-ground point set as the point `(u, v, 0)`. -/
theorem zero_depth_enters_nonground (dm : List (List ℚ)) (v u : ℕ) (row : List ℚ)
    (hrow : dm.get? v = some row) (hz : row.get? u = some 0) :
    ((estimate_ground_plane dm).get? v).bind (fun r => r.get? u) = some false ∧
      ((u : ℚ), (v : ℚ), (0 : ℚ)) ∈ gridPoints 0 dm (estimate_ground_plane dm) := by
  have hfalse : decide (|heightAt dm.length v 0| < 1/10) = false := by
    have h1 : heightAt dm.length v 0 = -(6/5) := by
      simp [heightAt, GROUND_HEIGHT_THRESHOLD]
    have h : ¬ (|heightAt dm.length v 0| < 1/10) := by
      rw [h1, abs_neg, abs_of_nonneg (by norm_num : (0:ℚ) ≤ 6/5)]
      norm_num
    exact decide_eq_false h
  have hm : (estimate_ground_plane dm).get? v = some (groundRow dm.length v row) := by
    rw [estimate_ground_plane_get?, hrow]
    rfl
  have hb : (groundRow dm.length v row).get? u = some false := by
    rw [groundRow_get? dm.length v row u, hz]
    show some (decide (|heightAt dm.length v 0| < 1/10)) = some false
    rw [hfalse]
  constructor
  · rw [hm]
    exact hb
  · simpa using mem_gridPoints 0 dm (estimate_ground_plane dm) v u row
      (groundRow dm.length v row) 0 hrow hm hz hb

/-- Witness for `zero_depth_enters_nonground`: on the depth map `[[0]]`,
the single pixel has depth 0, is non-ground, and becomes point (0, 0, 0). -/
theorem zero_depth_enters_nonground_witness :
    ((estimate_ground_plane [[0]]).get? 0).bind (fun r => r.get? 0) = some false ∧
      ((0 : ℚ), (0 : ℚ), (0 : ℚ)) ∈ gridPoints 0 [[0]] (estimate_ground_plane [[0]]) := by
  have h := zero_depth_enters_nonground [[0]] 0 0 [0] rfl rfl
  simpa using h

/-! ### Frame-loop theorems -/

/-- **C3, code_bug** — The claim (and §7 of the spec) requires the frame
loop to skip a failed capture and retry on the next iteration without
terminating the process.  The code instead lets the exception from
`capture_frame` propagate out of the `while True` loop: with a failed
capture followed by an available frame, the run ends with the capture
error and processes nothing — the subsequent frame is never consumed.  The
second conjunct shows the same later environment is processed when reached,
so the loss is due to termination, not to the input. -/
theorem capture_failure_terminates_loop :
    mainLoop [⟨none, false⟩, ⟨some 7, false⟩] =
      ⟨[], ExitKind.err "Failed to capture frame from camera"⟩ ∧
    mainLoop [⟨some 7, false⟩] = ⟨[7], ExitKind.horizon⟩ := ⟨rfl, rfl⟩

/-! ### Segmentation error on an empty non-ground set -/

theorem segment_obstacles_error_of_empty (dm : List (List ℚ)) (mask : List (List Bool))
    (h : gridPoints 0 dm mask = []) :
    segment_obstacles dm mask =
      Except.error "Found array with 0 sample(s) while a minimum of 1 is required" := by
  simp [segment_obstacles, h]

/-- **C2, code_bug** — The claim (and the spec) requires `segment_obstacles`
to return an empty sequence, not an error, when every pixel is ground.  The
code passes the empty point array to sklearn `DBSCAN.fit`, whose input
validation raises `ValueError: Found array with 0 sample(s) ...`, so the
call raises instead of returning `[]`.  Failing input: a 1×1 depth map
whose only pixel is masked as ground. -/
theorem segment_obstacles_empty_error :
    gridPoints 0 [[0]] [[true]] = [] ∧
    segment_obstacles [[0]] [[true]] =
      Except.error "Found array with 0 sample(s) while a minimum of 1 is required" :=
  ⟨rfl, rfl⟩

/-! ### Angle bridge lemmas

The source compares `arctan2(x, 525) * 180 / pi` with degree constants.
These lemmas prove that the ℚ-decidable tests used in `sectorOf` agree
exactly with those real-number comparisons. -/

theorem tan_pi_div_twelve : Real.tan (π / 12) = 2 - Real.sqrt 3 := by
  have h12 : (π / 12 : ℝ) = π / 4 - π / 6 := by ring
  have hs2 : Real.sqrt 2 ^ 2 = 2 := Real.sq_sqrt (by norm_num)
  have hs3 : Real.sqrt 3 ^ 2 = 3 := Real.sq_sqrt (by norm_num)
  have hs2pos : 0 < Real.sqrt 2 := Real.sqrt_pos.mpr (by norm_num)
  have hs3pos : 0 < Real.sqrt 3 := Real.sqrt_pos.mpr (by norm_num)
  rw [h12, Real.tan_eq_sin_div_cos, Real.sin_sub, Real.cos_sub,
    Real.sin_pi_div_four, Real.cos_pi_div_four, Real.sin_pi_div_six, Real.cos_pi_div_six]
  have hD : Real.sqrt 2 / 2 * (Real.sqrt 3 / 2) + Real.sqrt 2 / 2 * (1 / 2) ≠ 0 := by
    positivity
  rw [div_eq_iff hD]
  ring_nf
  nlinarith [hs2, hs3, hs2pos, hs3pos, mul_pos hs2pos hs3pos]

theorem arctan_le_iff_le_tan (x c : ℝ) (h1 : -(π / 2) < c) (h2 : c < π / 2) :
    Real.arctan x ≤ c ↔ x ≤ Real.tan c := by
  have hmem : Real.arctan x ∈ Set.Ioo (-(π / 2)) (π / 2) :=
    ⟨Real.neg_pi_div_two_lt_arctan x, Real.arctan_lt_pi_div_two x⟩
  have hc : c ∈ Set.Ioo (-(π / 2)) (π / 2) := ⟨h1, h2⟩
  rw [← Real.strictMonoOn_tan.le_iff_le hmem hc, Real.tan_arctan]

theorem tan_le_iff_le_arctan (x c : ℝ) (h1 : -(π / 2) < c) (h2 : c < π / 2) :
    c ≤ Real.arctan x ↔ Real.tan c ≤ x := by
  have hmem : Real.arctan x ∈ Set.Ioo (-(π / 2)) (π / 2) :=
    ⟨Real.neg_pi_div_two_lt_arctan x, Real.arctan_lt_pi_div_two x⟩
  have hc : c ∈ Set.Ioo (-(π / 2)) (π / 2) := ⟨h1, h2⟩
  rw [← Real.strictMonoOn_tan.le_iff_le hc hmem, Real.tan_arctan]

theorem deg_scale_le (a d : ℝ) : a * 180 / π ≤ d ↔ a ≤ d * π / 180 := by
  rw [div_le_iff₀ Real.pi_pos, le_div_iff₀ (by norm_num : (0:ℝ) < 180)]

theorem deg_scale_ge (a d : ℝ) : d ≤ a * 180 / π ↔ d * π / 180 ≤ a := by
  rw [le_div_iff₀ Real.pi_pos, div_le_iff₀ (by norm_num : (0:ℝ) < 180)]

theorem sqrt_three_le_iff (y : ℝ) : Real.sqrt 3 ≤ y ↔ 0 ≤ y ∧ 3 ≤ y ^ 2 := by
  constructor
  · intro h
    have hy : 0 ≤ y := le_trans (Real.sqrt_nonneg 3) h
    refine ⟨hy, ?_⟩
    calc (3:ℝ) = Real.sqrt 3 ^ 2 := (Real.sq_sqrt (by norm_num)).symm
    _ ≤ y ^ 2 := by
        exact pow_le_pow_left₀ (Real.sqrt_nonneg 3) h 2
  · rintro ⟨hy, h3⟩
    calc Real.sqrt 3 ≤ Real.sqrt (y ^ 2) := Real.sqrt_le_sqrt h3
    _ = y := Real.sqrt_sq hy

theorem le_tan15_iff_deg (t : ℚ) :
    le_tan15 t = true ↔ Real.arctan (t : ℝ) * 180 / π ≤ 15 := by
  rw [deg_scale_le]
  have h15 : (15:ℝ) * π / 180 = π / 12 := by ring
  rw [h15, arctan_le_iff_le_tan (t : ℝ) (π / 12)
    (by nlinarith [Real.pi_pos]) (by nlinarith [Real.pi_pos]), tan_pi_div_twelve]
  unfold le_tan15
  simp only [decide_eq_true_eq]
  have key : (t : ℝ) ≤ 2 - Real.sqrt 3 ↔ Real.sqrt 3 ≤ 2 - (t : ℝ) := by
    constructor <;> intro h <;> linarith
  rw [key, sqrt_three_le_iff]
  constructor
  · rintro ⟨h0, h3⟩
    exact ⟨by exact_mod_cast h0, by exact_mod_cast h3⟩
  · rintro ⟨h0, h3⟩
    exact ⟨by exact_mod_cast h0, by exact_mod_cast h3⟩

theorem ge_tanNeg15_iff_deg (t : ℚ) :
    ge_tanNeg15 t = true ↔ (-15 : ℝ) ≤ Real.arctan (t : ℝ) * 180 / π := by
  rw [deg_scale_ge]
  have h15 : (-15:ℝ) * π / 180 = -(π / 12) := by ring
  rw [h15, tan_le_iff_le_arctan (t : ℝ) (-(π / 12))
    (by nlinarith [Real.pi_pos]) (by nlinarith [Real.pi_pos]), Real.tan_neg,
    tan_pi_div_twelve]
  unfold ge_tanNeg15
  simp only [decide_eq_true_eq]
  have key : -(2 - Real.sqrt 3) ≤ (t : ℝ) ↔ Real.sqrt 3 ≤ (t : ℝ) + 2 := by
    constructor <;> intro h <;> linarith
  rw [key, sqrt_three_le_iff]
  constructor
  · rintro ⟨h0, h3⟩
    exact ⟨by exact_mod_cast h0, by exact_mod_cast h3⟩
  · rintro ⟨h0, h3⟩
    exact ⟨by exact_mod_cast h0, by exact_mod_cast h3⟩

theorem le_one_iff_deg (t : ℚ) :
    t ≤ 1 ↔ Real.arctan (t : ℝ) * 180 / π ≤ 45 := by
  rw [deg_scale_le]
  have h45 : (45:ℝ) * π / 180 = π / 4 := by ring
  rw [h45, arctan_le_iff_le_tan (t : ℝ) (π / 4)
    (by nlinarith [Real.pi_pos]) (by nlinarith [Real.pi_pos]), Real.tan_pi_div_four]
  constructor <;> intro h <;> exact_mod_cast h

theorem neg_one_le_iff_deg (t : ℚ) :
    -1 ≤ t ↔ (-45 : ℝ) ≤ Real.arctan (t : ℝ) * 180 / π := by
  rw [deg_scale_ge]
  have h45 : (-45:ℝ) * π / 180 = -(π / 4) := by ring
  rw [h45, tan_le_iff_le_arctan (t : ℝ) (-(π / 4))
    (by nlinarith [Real.pi_pos]) (by nlinarith [Real.pi_pos]), Real.tan_neg,
    Real.tan_pi_div_four]
  constructor <;> intro h <;> exact_mod_cast h

/-! ### Sector assignment by angular band -/

theorem sector_band_N (t : ℚ)
    (h1 : (-15 : ℝ) ≤ Real.arctan (t : ℝ) * 180 / π)
    (h2 : Real.arctan (t : ℝ) * 180 / π ≤ 15) :
    sectorOf t = some "N" := by
  have hge : ge_tanNeg15 t = true := (ge_tanNeg15_iff_deg t).mpr h1
  have hle : le_tan15 t = true := (le_tan15_iff_deg t).mpr h2
  simp [sectorOf, hge, hle]

theorem sector_band_NE (t : ℚ)
    (h1 : (15 : ℝ) < Real.arctan (t : ℝ) * 180 / π)
    (h2 : Real.arctan (t : ℝ) * 180 / π ≤ 45) :
    sectorOf t = some "NE" := by
  have hle : le_tan15 t = false := by
    rw [Bool.eq_false_iff]
    intro hcon
    exact absurd ((le_tan15_iff_deg t).mp hcon) (not_le.mpr h1)
  have h45 : decide (t ≤ 1) = true := decide_eq_true ((le_one_iff_deg t).mpr h2)
  simp [sectorOf, hle, h45]

theorem sector_band_NW (t : ℚ)
    (h1 : (-45 : ℝ) ≤ Real.arctan (t : ℝ) * 180 / π)
    (h2 : Real.arctan (t : ℝ) * 180 / π < -15) :
    sectorOf t = some "NW" := by
  have hge : ge_tanNeg15 t = false := by
    rw [Bool.eq_false_iff]
    intro hcon
    exact absurd ((ge_tanNeg15_iff_deg t).mp hcon) (not_le.mpr h2)
  have hle : le_tan15 t = true := (le_tan15_iff_deg t).mpr (by linarith)
  have h45 : decide (-1 ≤ t) = true := decide_eq_true ((neg_one_le_iff_deg t).mpr h1)
  simp [sectorOf, hge, hle, h45]

theorem sector_band_out (t : ℚ)
    (h : Real.arctan (t : ℝ) * 180 / π < -45 ∨
      (45 : ℝ) < Real.arctan (t : ℝ) * 180 / π) :
    sectorOf t = none := by
  rcases h with h | h
  · have hge : ge_tanNeg15 t = false := by
      rw [Bool.eq_false_iff]
      intro hcon
      exact absurd ((ge_tanNeg15_iff_deg t).mp hcon) (by linarith)
    have hle : le_tan15 t = true := (le_tan15_iff_deg t).mpr (by linarith)
    have h45 : decide (-1 ≤ t) = false := by
      rw [decide_eq_false_iff_not]
      intro hcon
      exact absurd ((neg_one_le_iff_deg t).mp hcon) (not_le.mpr h)
    simp [sectorOf, hge, hle, h45]
  · have hle : le_tan15 t = false := by
      rw [Bool.eq_false_iff]
      intro hcon
      exact absurd ((le_tan15_iff_deg t).mp hcon) (by linarith)
    have hge : ge_tanNeg15 t = true := (ge_tanNeg15_iff_deg t).mpr (by linarith)
    have h45 : decide (t ≤ 1) = false := by
      rw [decide_eq_false_iff_not]
      intro hcon
      exact absurd ((le_one_iff_deg t).mp hcon) (not_le.mpr h)
    simp [sectorOf, hge, hle, h45]

theorem sectorFold_spec (obstacles : List Obstacle) :
    ∀ acc : List ℚ × List ℚ × List ℚ,
      obstacles.foldl sectorStep acc =
        (acc.1 ++ (obstacles.filter
            (fun o => decide (sectorOf (obstacleT o) = some "N"))).map
            (fun o => o.centroid.2.2),
         acc.2.1 ++ (obstacles.filter
            (fun o => decide (sectorOf (obstacleT o) = some "NE"))).map
            (fun o => o.centroid.2.2),
         acc.2.2 ++ (obstacles.filter
            (fun o => decide (sectorOf (obstacleT o) = some "NW"))).map
            (fun o => o.centroid.2.2)) := by
  induction obstacles with
  | nil => intro acc; simp
  | cons o os ih =>
    intro acc
    simp only [List.foldl_cons, List.filter_cons, decide_eq_true_eq, ih]
    unfold sectorStep
    split_ifs <;> simp_all

/-- **C4** — `map_obstacles_to_sectors` returns an entry for every
configured sector N, NE, NW; an obstacle whose centroid angle
`arctan((u - 320)/525) * 180/π` lies in `[-15, 15]` is assigned to N, in
`(15, 45]` to NE, in `[-45, -15)` to NW (to exactly one sector, as
`sectorOf` is a function), and an obstacle whose angle lies outside all
bands is dropped; each sector's value is the minimum centroid `z` over the
obstacles assigned to it, or `None` when there are none. -/
theorem mapper_characterization (obstacles : List Obstacle) :
    ((map_obstacles_to_sectors obstacles).map Prod.fst = ["N", "NE", "NW"]) ∧
    (∀ o : Obstacle,
      (((-15:ℝ) ≤ Real.arctan (obstacleT o : ℝ) * 180 / π ∧
          Real.arctan (obstacleT o : ℝ) * 180 / π ≤ 15) →
          sectorOf (obstacleT o) = some "N") ∧
      (((15:ℝ) < Real.arctan (obstacleT o : ℝ) * 180 / π ∧
          Real.arctan (obstacleT o : ℝ) * 180 / π ≤ 45) →
          sectorOf (obstacleT o) = some "NE") ∧
      (((-45:ℝ) ≤ Real.arctan (obstacleT o : ℝ) * 180 / π ∧
          Real.arctan (obstacleT o : ℝ) * 180 / π < -15) →
          sectorOf (obstacleT o) = some "NW") ∧
      ((Real.arctan (obstacleT o : ℝ) * 180 / π < -45 ∨
          (45:ℝ) < Real.arctan (obstacleT o : ℝ) * 180 / π) →
          sectorOf (obstacleT o) = none)) ∧
    (map_obstacles_to_sectors obstacles).lookup "N" =
        some ((obstacles.filter
          (fun o => decide (sectorOf (obstacleT o) = some "N"))).map
          (fun o => o.centroid.2.2)).min? ∧
    (map_obstacles_to_sectors obstacles).lookup "NE" =
        some ((obstacles.filter
          (fun o => decide (sectorOf (obstacleT o) = some "NE"))).map
          (fun o => o.centroid.2.2)).min? ∧
    (map_obstacles_to_sectors obstacles).lookup "NW" =
        some ((obstacles.filter
          (fun o => decide (sectorOf (obstacleT o) = some "NW"))).map
          (fun o => o.centroid.2.2)).min? := by
  refine ⟨rfl, ?_, ?_, ?_, ?_⟩
  · intro o
    exact ⟨fun h => sector_band_N _ h.1 h.2, fun h => sector_band_NE _ h.1 h.2,
      fun h => sector_band_NW _ h.1 h.2, fun h => sector_band_out _ h⟩
  all_goals
    simp only [map_obstacles_to_sectors, sectorFold_spec obstacles ([], [], []),
      List.nil_append]
    rfl

/-- Witness for `mapper_characterization`: the spec's scenario — a single
obstacle centered at pixel (320, 240) with depth 1 has angle
`arctan 0 = 0°`, is assigned to sector N, and `SectorReading[N] = 1`. -/
theorem mapper_characterization_witness :
    sectorOf (obstacleT ⟨(320, 240, 1), [(320, 240, 1)]⟩) = some "N" ∧
    (map_obstacles_to_sectors [⟨(320, 240, 1), [(320, 240, 1)]⟩]).lookup "N" =
      some (some 1) := by
  have h := mapper_characterization [⟨(320, 240, 1), [(320, 240, 1)]⟩]
  have ht : obstacleT ⟨(320, 240, 1), [(320, 240, 1)]⟩ = 0 := by
    norm_num [obstacleT, FRAME_WIDTH, FOCAL_LENGTH]
  have hdeg : Real.arctan ((obstacleT ⟨(320, 240, 1), [(320, 240, 1)]⟩ : ℚ) : ℝ)
      * 180 / π = 0 := by
    rw [ht]
    simp [Real.arctan_zero]
  have hsec := (h.2.1 ⟨(320, 240, 1), [(320, 240, 1)]⟩).1
    (by rw [hdeg]; norm_num)
  refine ⟨hsec, ?_⟩
  rw [h.2.2.1]
  simp [hsec, List.min?]

/-! ### Composition safety of mapper and actuation -/

theorem cmdOpt_filter_ne (m k : ℤ) (o : Option ℚ) (h : ¬ k = m) :
    (cmdOpt m o).filter (fun c => decide (c.1 = k)) = [] := by
  rcases o with _ | d
  · rfl
  · simp only [cmdOpt]
    split_ifs
    · simp [Ne.symm h]
    · rfl

theorem threeSeg_count (a b c : Option ℚ) (k : ℤ) :
    ((cmdOpt 0 a ++ cmdOpt 1 b ++ cmdOpt 2 c).filter
      (fun p => decide (p.1 = k))).length ≤ 1 := by
  rw [List.filter_append, List.filter_append, List.length_append, List.length_append]
  by_cases h0 : k = 0
  · rw [cmdOpt_filter_ne 1 k b (by omega), cmdOpt_filter_ne 2 k c (by omega)]
    simpa using le_trans (List.length_filter_le _ _) (cmdOpt_length_le 0 a)
  · by_cases h1 : k = 1
    · rw [cmdOpt_filter_ne 0 k a (by omega), cmdOpt_filter_ne 2 k c (by omega)]
      simpa using le_trans (List.length_filter_le _ _) (cmdOpt_length_le 1 b)
    · by_cases h2 : k = 2
      · rw [cmdOpt_filter_ne 0 k a (by omega), cmdOpt_filter_ne 1 k b (by omega)]
        simpa using le_trans (List.length_filter_le _ _) (cmdOpt_length_le 2 c)
      · rw [cmdOpt_filter_ne 0 k a h0, cmdOpt_filter_ne 1 k b h1,
          cmdOpt_filter_ne 2 k c h2]
        simp

/-- **C10** — The key set of a sector reading produced by
`map_obstacles_to_sectors` is exactly the configured SECTORS list
N, NE, NW; the motor map of `trigger_haptic_feedback` has an id for each of
those keys (N→0, NE→1, NW→2); hence composing the two never hits a
`KeyError` (the trigger returns `Except.ok`), and at most one command per
motor/sector is emitted per frame. -/
theorem compose_no_keyerror (obstacles : List Obstacle) :
    ((map_obstacles_to_sectors obstacles).map Prod.fst = SECTORS) ∧
    motorMap "N" = some 0 ∧ motorMap "NE" = some 1 ∧ motorMap "NW" = some 2 ∧
    ∃ cmds, trigger_haptic_feedback (map_obstacles_to_sectors obstacles) =
        Except.ok cmds ∧
      ∀ k : ℤ, (cmds.filter (fun c => decide (c.1 = k))).length ≤ 1 := by
  refine ⟨rfl, rfl, rfl, rfl, ?_⟩
  obtain ⟨a, b, c, habc⟩ : ∃ a b c, map_obstacles_to_sectors obstacles =
      [("N", a), ("NE", b), ("NW", c)] := ⟨_, _, _, rfl⟩
  rw [habc]
  exact ⟨cmdOpt 0 a ++ cmdOpt 1 b ++ cmdOpt 2 c, trigger_eq_cmdOpt a b c,
    fun k => threeSeg_count a b c k⟩

/-! ### Clusterer structural lemmas and C6 -/

theorem bfsExpand_length (isCore : List Bool) (nbh : List (List ℕ)) :
    ∀ (fuel : ℕ) (lab : List ℤ) (stack : List ℕ) (cl : ℤ),
      (bfsExpand isCore nbh fuel lab stack cl).length = lab.length := by
  intro fuel
  induction fuel with
  | zero => intro lab stack cl; rfl
  | succ fuel ih =>
    intro lab stack cl
    cases stack with
    | nil => rfl
    | cons i stack =>
      simp only [bfsExpand]
      split_ifs <;> simp [ih, List.length_set]

theorem dbscanOuter_length (isCore : List Bool) (nbh : List (List ℕ)) (fuel : ℕ) :
    ∀ (idxs : List ℕ) (lab : List ℤ) (cl : ℤ),
      (dbscanOuter isCore nbh fuel idxs lab cl).length = lab.length := by
  intro idxs
  induction idxs with
  | nil => intro lab cl; rfl
  | cons i rest ih =>
    intro lab cl
    simp only [dbscanOuter]
    split_ifs <;> simp [ih, bfsExpand_length]

theorem dbscan_labels_length (eps : ℚ) (minSamples : ℕ) (pts : List Point3) :
    (dbscan_labels eps minSamples pts).length = pts.length := by
  unfold dbscan_labels
  rw [dbscanOuter_length, List.length_replicate]

theorem mem_insertUniq (x y : ℤ) (L : List ℤ) (h : x ∈ insertUniq y L) :
    x = y ∨ x ∈ L := by
  induction L with
  | nil => simpa [insertUniq] using h
  | cons z zs ih =>
    simp only [insertUniq] at h
    split_ifs at h with h1 h2
    · simpa using h
    · simp at h
      rcases h with h | h
      · right; simp [h]
      · right; simp [h]
    · simp at h
      rcases h with h | h
      · right; simp [h]
      · rcases ih h with h' | h'
        · left; exact h'
        · right; simp [h']

theorem mem_uniqueLabels (labs : List ℤ) (l : ℤ) (h : l ∈ uniqueLabels labs) :
    l ∈ labs ∧ l ≠ -1 := by
  unfold uniqueLabels at h
  have key : ∀ L : List ℤ, l ∈ L.foldr insertUniq [] → l ∈ L := by
    intro L
    induction L with
    | nil => intro h'; simp at h'
    | cons z zs ih =>
      intro h'
      simp only [List.foldr_cons] at h'
      rcases mem_insertUniq l z _ h' with h'' | h''
      · simp [h'']
      · simp [ih h'']
  have hmem := key _ h
  rw [List.mem_filter] at hmem
  exact ⟨hmem.1, by simpa using hmem.2⟩

theorem selectByLabel_ne_nil :
    ∀ (pts : List Point3) (labs : List ℤ) (l : ℤ),
      pts.length = labs.length → l ∈ labs → selectByLabel pts labs l ≠ [] := by
  intro pts labs
  induction labs generalizing pts with
  | nil => intro l _ hl; simp at hl
  | cons x xs ih =>
    intro l hlen hl
    cases pts with
    | nil => simp at hlen
    | cons p ps =>
      simp only [List.mem_cons] at hl
      simp only [selectByLabel, List.zip_cons_cons, List.filter_cons]
      rcases hl with hl | hl
      · subst hl
        simp
      · by_cases hx : x = l
        · simp [hx]
        · have := ih ps l (by simpa using hlen) hl
          simpa [hx, selectByLabel] using this

theorem eq_ok_of_toOption {e : Except String (List Obstacle)} {l : List Obstacle}
    (h : e.toOption = some l) : e = Except.ok l := by
  cases e with
  | error msg => simp [Except.toOption] at h
  | ok v =>
    simp only [Except.toOption, Option.some.injEq] at h
    rw [h]

set_option maxHeartbeats 2000000 in
/-- **C6, counterexample** — The claim fails on the code: `DBSCAN` can
return a cluster with fewer than `min_samples = 20` points.  In the scene
`cexDepthMap`/`cexGroundMask`, the 21-pixel column at `u = 5` forms
cluster 0 (its core points are `v = 9, 10, 11`).  The pixel `(5, 23)` has
exactly 20 points within `eps = 10` (itself, the column pixels
`v = 13..20`, and the 11 bottom-row pixels), so it is a core point — but
its 8 column neighbors are already labeled by cluster 0 when its turn
comes, so its cluster receives only 12 points.  `segment_obstacles` hence
returns obstacles with point counts `[21, 12]`, and `12 < 20`. -/
theorem cluster_below_minSamples :
    (segment_obstacles cexDepthMap cexGroundMask).toOption.map
      (fun l => l.map (fun o => o.points.length)) = some [21, 12] ∧ 12 < 20 :=
  ⟨by with_unfolding_all decide, by norm_num⟩

/-- **C6, amended** — Every obstacle returned by `segment_obstacles` has a
non-empty points list, and DBSCAN noise (label -1) never appears as an
obstacle: each obstacle is the set of points of some non-noise cluster
label.  (A cluster may, however, have fewer than `min_samples` points when
border points in its core's neighborhood were already claimed by an
earlier cluster.) -/
theorem obstacles_nonempty_no_noise (dm : List (List ℚ)) (mask : List (List Bool))
    (obstacles : List Obstacle)
    (h : segment_obstacles dm mask = Except.ok obstacles) :
    ∀ obs ∈ obstacles, obs.points ≠ [] ∧
      ∃ lab, lab ≠ -1 ∧ obs.points =
        selectByLabel (gridPoints 0 dm mask)
          (dbscan_labels 10 20 (gridPoints 0 dm mask)) lab := by
  intro obs hobs
  simp only [segment_obstacles] at h
  split_ifs at h with hempty
  simp only [Except.ok.injEq] at h
  subst h
  simp only [List.mem_map] at hobs
  obtain ⟨lab, hlab, hobs⟩ := hobs
  have hmem := mem_uniqueLabels _ _ hlab
  subst hobs
  refine ⟨?_, lab, hmem.2, rfl⟩
  exact selectByLabel_ne_nil _ _ lab (dbscan_labels_length 10 20 _).symm hmem.1

set_option maxHeartbeats 1000000 in
/-- Witness for `obstacles_nonempty_no_noise`: a 1×20 frame whose pixels
are all non-ground yields one 20-point cluster, and every returned
obstacle has non-empty points. -/
theorem obstacles_nonempty_no_noise_witness :
    ∃ obstacles,
      segment_obstacles [List.replicate 20 (0:ℚ)] [List.replicate 20 false] =
        Except.ok obstacles ∧ ∀ obs ∈ obstacles, obs.points ≠ [] := by
  obtain ⟨L, hL⟩ : ∃ L,
      (segment_obstacles [List.replicate 20 (0:ℚ)]
        [List.replicate 20 false]).toOption = some L :=
    Option.isSome_iff_exists.mp (by with_unfolding_all decide)
  have hok := eq_ok_of_toOption hL
  exact ⟨L, hok, fun obs hobs =>
    (obstacles_nonempty_no_noise _ _ L hok obs hobs).1⟩

end Hybridbody
